import Mathlib

/-!
# Verification of the time-tracking / billing ingestion pipelines

A shallow embedding of the core parsing and normalization logic of the
repository (`clean_gusto_multi.py` and `quickbooks_parser.py`), together
with theorems settling the specification claims about it.

Strings are modelled as `List Char`; Python floats are modelled as exact
rationals `ℚ`; a missing value (`None` / pandas `NaN`) is `Option.none`;
code that raises an exception to its caller returns `Except.error`.
Python's regular expressions are translated into explicit backtracking
matchers that enumerate alternatives in the regex engine's priority order.
Character classes (`\s`, `\d`, `\w`, case mapping) are modelled over the
ASCII range, which covers every character the pipelines' rule tables and
the claims' inputs use.
-/

/-- Python `\s` (ASCII range): space, tab, newline, carriage return,
vertical tab, form feed. -/
def pyIsSpace (c : Char) : Bool :=
  c.toNat = 32 || c.toNat = 9 || c.toNat = 10 || c.toNat = 13 ||
  c.toNat = 11 || c.toNat = 12

/-- Python `\d` (ASCII digits). -/
def isDigitC (c : Char) : Bool := 48 ≤ c.toNat && c.toNat ≤ 57

/-- ASCII uppercase letter. -/
def isUpperC (c : Char) : Bool := 65 ≤ c.toNat && c.toNat ≤ 90

/-- ASCII lowercase letter. -/
def isLowerC (c : Char) : Bool := 97 ≤ c.toNat && c.toNat ≤ 122

/-- Python `str.lower` on one character (ASCII), written as an explicit
table so that facts about it follow by case splitting. -/
def lowerC (c : Char) : Char :=
  match c with
  | 'A' => 'a' | 'B' => 'b' | 'C' => 'c' | 'D' => 'd' | 'E' => 'e'
  | 'F' => 'f' | 'G' => 'g' | 'H' => 'h' | 'I' => 'i' | 'J' => 'j'
  | 'K' => 'k' | 'L' => 'l' | 'M' => 'm' | 'N' => 'n' | 'O' => 'o'
  | 'P' => 'p' | 'Q' => 'q' | 'R' => 'r' | 'S' => 's' | 'T' => 't'
  | 'U' => 'u' | 'V' => 'v' | 'W' => 'w' | 'X' => 'x' | 'Y' => 'y'
  | 'Z' => 'z'
  | c => c

/-- Python `str.upper` on one character (ASCII). -/
def upperC (c : Char) : Char :=
  match c with
  | 'a' => 'A' | 'b' => 'B' | 'c' => 'C' | 'd' => 'D' | 'e' => 'E'
  | 'f' => 'F' | 'g' => 'G' | 'h' => 'H' | 'i' => 'I' | 'j' => 'J'
  | 'k' => 'K' | 'l' => 'L' | 'm' => 'M' | 'n' => 'N' | 'o' => 'O'
  | 'p' => 'P' | 'q' => 'Q' | 'r' => 'R' | 's' => 'S' | 't' => 'T'
  | 'u' => 'U' | 'v' => 'V' | 'w' => 'W' | 'x' => 'X' | 'y' => 'Y'
  | 'z' => 'Z'
  | c => c

def lowerL (cs : List Char) : List Char := cs.map lowerC

/-- Drop trailing whitespace. -/
def dropTrail (cs : List Char) : List Char :=
  (cs.reverse.dropWhile pyIsSpace).reverse

/-- Python `str.strip`: leading whitespace first, then trailing. -/
def stripL (cs : List Char) : List Char :=
  dropTrail (cs.dropWhile pyIsSpace)

def pyLower (s : String) : String := String.mk (lowerL s.data)

def pyStrip (s : String) : String := String.mk (stripL s.data)

/-- Python substring test `pat in hay`. -/
def containsSub (hay pat : List Char) : Bool :=
  match hay with
  | [] => pat.isEmpty
  | _ :: rest => pat.isPrefixOf hay || containsSub rest pat

/-- Python `sep.join(pieces)`. -/
def joinWith (sep : List Char) : List (List Char) → List Char
  | [] => []
  | [x] => x
  | x :: xs => x ++ sep ++ joinWith sep xs

/-- Python `str.split(sep)` for a one-character separator: every
occurrence splits, empty pieces kept. -/
def splitOnC (sep : Char) : List Char → List (List Char)
  | [] => [[]]
  | c :: cs =>
    match splitOnC sep cs with
    | [] => if c = sep then [[], []] else [[c]]
    | r :: rs => if c = sep then [] :: r :: rs else (c :: r) :: rs

/-- Split a list at maximal runs of elements satisfying `p` (the behavior
of `re.split` on a `X+` pattern: a run of separators makes one boundary,
boundary runs leave empty pieces at the ends). `inSep` records whether the
scan is inside a separator run. -/
def splitRunsP {α : Type} (p : α → Bool) (inSep : Bool) : List α → List (List α)
  | [] => [[]]
  | a :: as =>
    if p a then
      if inSep then splitRunsP p true as
      else [] :: splitRunsP p true as
    else
      match splitRunsP p false as with
      | [] => [[a]]
      | r :: rs => (a :: r) :: rs

/-- Python `str.title` (ASCII): uppercase a letter that follows a
non-letter, lowercase every other letter. -/
def pyTitleGo (prevCased : Bool) : List Char → List Char
  | [] => []
  | c :: cs =>
    let isL := isUpperC c || isLowerC c
    (if isL then (if prevCased then lowerC c else upperC c) else c) ::
      pyTitleGo isL cs

def pyTitle (cs : List Char) : List Char := pyTitleGo false cs

/-- Python `str(x)` on an optional string: `None` prints as `"None"`. -/
def pyStrNone (o : Option String) : String := o.getD "None"

/-! ## Regular-expression fragments

Each matcher consumes from the head of a `List Char` and returns either
the rest of the input after the match, or — for a fragment with
backtracking alternatives — the list of possible rests in the regex
engine's priority order (greedy alternative first). -/

/-- `[APMapm]` — the character class of the am/pm marker in the
time-range patterns of `clean_gusto_multi.py`. -/
def isAPMchar (c : Char) : Bool :=
  c = 'A' || c = 'P' || c = 'M' || c = 'a' || c = 'p' || c = 'm'

/-- `\d{1,2}:\d{2}` — both alternatives (two-digit hour first, as the
greedy quantifier tries it first), each returning the rest. -/
def hhmmSplit (cs : List Char) : List (List Char) :=
  (match cs with
   | a :: b :: c :: d :: e :: rest =>
     if isDigitC a && isDigitC b && c = ':' && isDigitC d && isDigitC e then [rest]
     else []
   | _ => []) ++
  (match cs with
   | a :: b :: c :: d :: rest =>
     if isDigitC a && b = ':' && isDigitC c && isDigitC d then [rest] else []
   | _ => [])

/-- `re.match(r'^\d{1,2}:\d{2}', …)` succeeds. -/
def startsTimeHHMM (cs : List Char) : Bool := !(hhmmSplit cs).isEmpty

/-- `(?:\s?[APMapm]{2})?` — alternatives in priority order: with the
optional whitespace, without it, group absent. -/
def optAPM (cs : List Char) : List (List Char) :=
  (match cs with
   | s :: a :: b :: rest =>
     if pyIsSpace s && isAPMchar a && isAPMchar b then [rest] else []
   | _ => []) ++
  (match cs with
   | a :: b :: rest => if isAPMchar a && isAPMchar b then [rest] else []
   | _ => []) ++ [cs]

/-- `(?: ?[APMapm]{2})?` — as `optAPM` but the optional gap is a literal
space (the variant used by `extract_possible_district_from_note` and
`parse_note_format`). -/
def optAPMsp (cs : List Char) : List (List Char) :=
  (match cs with
   | ' ' :: a :: b :: rest => if isAPMchar a && isAPMchar b then [rest] else []
   | _ => []) ++
  (match cs with
   | a :: b :: rest => if isAPMchar a && isAPMchar b then [rest] else []
   | _ => []) ++ [cs]

/-- `\s*-\s*` — deterministic because `-` is not whitespace. -/
def matchDash (cs : List Char) : Option (List Char) :=
  match cs.dropWhile pyIsSpace with
  | '-' :: rest => some (rest.dropWhile pyIsSpace)
  | _ => none

/-- The lookahead body of `split_manual_note_entries`:
`\d{1,2}:\d{2}(?:\s?[APMapm]{2})?\s*-\s*\d{1,2}:\d{2}` matches at the
head of `cs`. -/
def matchTimeRangeAt (cs : List Char) : Bool :=
  (hhmmSplit cs).any fun r1 =>
    (optAPM r1).any fun r2 =>
      match matchDash r2 with
      | some r3 => !(hhmmSplit r3).isEmpty
      | none => false

/-- The anchored pattern of `extract_possible_district_from_note`:
`^\d{1,2}:\d{2}(?: ?[APMapm]{2})?\s*-\s*\d{1,2}:\d{2}(?: ?[APMapm]{2})?\s*>?`.
Returns the rest of the input after the (first, priority-ordered) match,
or `none`. -/
def leadTimeRange (cs : List Char) : Option (List Char) :=
  (hhmmSplit cs).findSome? fun r1 =>
    (optAPMsp r1).findSome? fun r2 =>
      (matchDash r2).bind fun r3 =>
        (hhmmSplit r3).findSome? fun r4 =>
          (optAPMsp r4).findSome? fun r5 =>
            let r6 := r5.dropWhile pyIsSpace
            some (match r6 with | '>' :: r7 => r7 | _ => r6)

/-- `re.sub(leading-time-range, '', note)`: remove the leading time range
when it matches, otherwise leave the input unchanged. -/
def stripLeadTimeRange (cs : List Char) : List Char := (leadTimeRange cs).getD cs

/-! ## strptime fragments for `estimate_hours`

`datetime.strptime` compiles `%I` to `(1[0-2]|0[1-9]|[1-9])`, `%M` to
`([0-5]\d|\d)`, `%p` to `(AM|PM)` case-insensitively, a space in the
format to `\s+`, and requires the whole string to be consumed. -/

/-- `%I`: candidate (hour value, rest) pairs, two-digit parse first. -/
def matchPctI (cs : List Char) : List (Nat × List Char) :=
  (match cs with
   | a :: b :: rest =>
     if isDigitC a && isDigitC b then
       let v := (a.toNat - 48) * 10 + (b.toNat - 48)
       if 1 ≤ v && v ≤ 12 then [(v, rest)] else []
     else []
   | _ => []) ++
  (match cs with
   | a :: rest =>
     if isDigitC a && 1 ≤ a.toNat - 48 then [(a.toNat - 48, rest)] else []
   | _ => [])

/-- `%M`: candidate (minute value, rest) pairs, two-digit parse first. -/
def matchPctM (cs : List Char) : List (Nat × List Char) :=
  (match cs with
   | a :: b :: rest =>
     if isDigitC a && a.toNat ≤ 53 && isDigitC b then
       [((a.toNat - 48) * 10 + (b.toNat - 48), rest)]
     else []
   | _ => []) ++
  (match cs with
   | a :: rest => if isDigitC a then [(a.toNat - 48, rest)] else []
   | _ => [])

/-- `%p`: `AM`/`PM`, case-insensitive; returns (is-pm, rest). -/
def matchPctP (cs : List Char) : Option (Bool × List Char) :=
  match cs with
  | a :: b :: rest =>
    if lowerC b = 'm' then
      if lowerC a = 'a' then some (false, rest)
      else if lowerC a = 'p' then some (true, rest)
      else none
    else none
  | _ => none

/-- A space in a strptime format: `\s+`. -/
def matchWS1 (cs : List Char) : Option (List Char) :=
  match cs with
  | c :: rest => if pyIsSpace c then some (rest.dropWhile pyIsSpace) else none
  | [] => none

/-- 12-hour clock to 24-hour, as `_strptime` does it. -/
def to24 (h12 : Nat) (pm : Bool) : Nat :=
  if pm then (if h12 = 12 then 12 else h12 + 12)
  else (if h12 = 12 then 0 else h12)

/-- `datetime.strptime(s, "%I:%M %p")`, result as minutes since
midnight. -/
def parseTimeColon (cs : List Char) : Option Nat :=
  (matchPctI cs).findSome? fun hw =>
    match hw.2 with
    | ':' :: r2 =>
      (matchPctM r2).findSome? fun mw =>
        (matchWS1 mw.2).bind fun r4 =>
          match matchPctP r4 with
          | some (pm, []) => some (to24 hw.1 pm * 60 + mw.1)
          | _ => none
    | _ => none

/-- `datetime.strptime(s, "%I %p")`, result as minutes since midnight. -/
def parseTimeNoColon (cs : List Char) : Option Nat :=
  (matchPctI cs).findSome? fun hw =>
    (matchWS1 hw.2).bind fun r2 =>
      match matchPctP r2 with
      | some (pm, []) => some (to24 hw.1 pm * 60)
      | _ => none

/-- Python `round(q, 3)` on the exact rational value. (Mathlib's `round`
is half-up; the two can differ from CPython's half-even only at exact
ties, which no minute-granularity duration produces.) -/
def round3 (q : ℚ) : ℚ := (round (q * 1000) : ℤ) / 1000

/-- `estimate_hours` of `clean_gusto_multi.py`: split the raw range on
`-` (exactly two parts, else the unpacking raises and the `except`
returns `None`), pick the format by the presence of `:` in the stripped
start, parse both sides, roll an earlier end time over to the next day,
and round the elapsed hours to 3 decimals. `None` input or any parse
failure yields `none`. -/
def estimate_hours (time_range : Option String) : Option ℚ :=
  match time_range with
  | none => none
  | some s =>
    if !(s.data.any (· = '-')) then none
    else
      match splitOnC '-' s.data with
      | [a, b] =>
        let start := stripL a
        let stop := stripL b
        let hasColon := start.any (· = ':')
        let ps := if hasColon then parseTimeColon start else parseTimeNoColon start
        let pe := if hasColon then parseTimeColon stop else parseTimeNoColon stop
        match ps, pe with
        | some sm, some em =>
          let diffMin : Nat := if em < sm then em + 1440 - sm else em - sm
          some (round3 ((diffMin * 60 : ℚ) / 3600))
        | _, _ => none
      | _ => none

/-! ## Sub-note splitting and per-note extraction -/

/-- Pieces of `cs` produced by the splits strictly inside `cs`
(`re.split` with the zero-width lookahead pattern splits before every
position, other than the scan start, where the time-range pattern
matches). -/
def laGo : List Char → List (List Char)
  | [] => [[]]
  | c :: cs =>
    if matchTimeRangeAt cs then [c] :: laGo cs
    else
      match laGo cs with
      | [] => [[c]]
      | r :: rs => (c :: r) :: rs

/-- `re.split(r'(?=\d{1,2}:\d{2}…)', entry)`: a match at position 0 adds
a leading empty piece. -/
def laSplit (cs : List Char) : List (List Char) :=
  if matchTimeRangeAt cs then [] :: laGo cs else laGo cs

/-- `split_manual_note_entries`: `re.split(r'\n+', note.strip())`, then
for each entry the lookahead split, keeping the stripped non-empty
fragments (`final_entries.extend([p.strip() for p in parts if p.strip()])`). -/
def split_manual_note_entries (note : Option String) : List String :=
  match note with
  | none => []
  | some n =>
    (splitRunsP (fun c => c = '\n') false (stripL n.data)).foldl
      (fun acc entry =>
        acc ++ (laSplit entry).filterMap fun p =>
          let q := stripL p
          if q.isEmpty then none else some (String.mk q))
      []

/-- Python `\w` over ASCII. -/
def isWordC (c : Char) : Bool := isDigitC c || isUpperC c || isLowerC c || c = '_'

/-- Maximal runs of word characters (`re.findall` of `\b…\b` patterns
can only match whole runs). -/
def wordRuns (cs : List Char) : List (List Char) :=
  (splitRunsP (fun c => !isWordC c) false cs).filter (fun r => !r.isEmpty)

/-- `extract_student_initials`: split the stripped note on `>`, drop a
leading time-range field, take the second field, uppercase it, and
collect `\b[A-Z]{1,3}\b` tokens joined by `", "`. -/
def extract_student_initials (note : Option String) : Option String :=
  match note with
  | none => none
  | some n =>
    let parts := splitOnC '>' (stripL n.data)
    let parts := if startsTimeHHMM (parts.headD []) then parts.tail else parts
    if parts.length ≥ 2 then
      let ini := (wordRuns ((parts.getD 1 []).map upperC)).filter fun r =>
        r.all isUpperC && 1 ≤ r.length && r.length ≤ 3
      if ini.isEmpty then none else some (String.mk (joinWith ", ".data ini))
    else none

/-- `extract_task`: third `>`-field of the raw note, cut at the first
`-`, stripped. (Unlike `extract_student_initials`, no leading time-range
field is skipped.) -/
def extract_task (note : Option String) : Option String :=
  match note with
  | none => none
  | some n =>
    let parts := splitOnC '>' n.data
    if parts.length ≥ 3 then
      some (String.mk (stripL ((splitOnC '-' (parts.getD 2 [])).headD [])))
    else none

/-- `standardize_task`: ordered substring triggers over the lowered,
stripped task, with a title-cased fallback. -/
def standardize_task (task : Option String) : Option String :=
  match task with
  | none => none
  | some task =>
    let t := stripL (lowerL task.data)
    if containsSub t "report".data then some "Report Writing"
    else if containsSub t "testing".data then some "Testing"
    else if containsSub t "interview".data || containsSub t "observation".data then
      some "Interview and Observation"
    else if containsSub t "eval".data || containsSub t "planning".data then
      some "Eval Planning"
    else if containsSub t "scoring".data || containsSub t "upload".data then
      some "Scoring and Uploading"
    else if containsSub t "meeting prep".data then some "Meeting Prep"
    else if containsSub t "iep".data then some "IEP Meeting Attendance"
    else if containsSub t "rating".data then some "Rating Scales"
    else if containsSub t "guardian".data || containsSub t "parent".data then
      some "Guardian Contact"
    else if containsSub t "teacher".data then some "Teacher Contact"
    else if containsSub t "staff".data then some "School Staff Contact"
    else if containsSub t "scheduling".data then some "Scheduling"
    else if containsSub t "onboarding".data then some "Onboarding"
    else if containsSub t "caseload".data then some "Caseload Organization"
    else if containsSub t "pd".data || containsSub t "development".data then
      some "Professional Development"
    else if containsSub t "email".data || containsSub t "communication".data then
      some "Internal Communication"
    else if containsSub t "troubleshoot".data || containsSub t "tech".data then
      some "Troubleshooting"
    else if containsSub t "waiting".data then some "Waiting"
    else some (String.mk (pyTitle task.data))

def eval_tasks : List String :=
  ["Eval Planning", "Scheduling", "Guardian Contact", "Teacher Contact",
   "School Staff Contact", "Rating Scales", "Eval Prep", "Waiting", "Testing",
   "Interview and Observation", "Scoring and Uploading", "Report Writing",
   "Post Eval School Consultation", "Meeting Prep", "IEP Meeting Attendance"]

def admin_tasks : List String :=
  ["Onboarding", "Internal Communication", "Professional Development",
   "Caseload Organization", "Troubleshooting"]

/-- `categorize_task`: exact set membership of the standardized task. -/
def categorize_task (task : Option String) : String :=
  match task with
  | some t =>
    if t ∈ eval_tasks then "Evaluation"
    else if t ∈ admin_tasks then "Admin"
    else "Uncategorized"
  | none => "Uncategorized"

/-! ## District normalization tables -/

/-- `district_aliases` as the ordered association list the Python dict
iterates over (insertion order). -/
def district_aliases : List (String × String) :=
  [("LHS", "Lawrence"), ("Lawrence High", "Lawrence"),
   ("Lawrence High School", "Lawrence"),
   ("Kipp", "KIPP"),
   ("Waltham High", "Waltham"), ("Waltham Elementary", "Waltham"),
   ("WSHS", "West Springfield"), ("W. Springfield", "West Springfield"),
   ("West Springfield High School", "West Springfield"),
   ("west springfield high school", "West Springfield"),
   ("Bridgewater", "Bridgewater-Raynham"), ("BMS", "Bridgewater-Raynham"),
   ("Raynahm", "Bridgewater-Raynham"), ("Raynham", "Bridgewater-Raynham"),
   ("BRHS", "Bridgewater-Raynham"), ("BRRHS", "Bridgewater-Raynham"),
   ("Bridgewater Middle", "Bridgewater-Raynham"),
   ("Randolph Middle", "Randolph"), ("Randolph Middle School", "Randolph"),
   ("Randolph High", "Randolph"),
   ("Donovan Elementary", "Randolph"), ("Donovan", "Randolph"),
   ("Donnovan", "Randolph"), ("Donovan School", "Randolph"),
   ("Wareham Elementary", "Wareham"), ("WES", "Wareham"),
   ("AMS", "Ashland"), ("AHS", "Ashland"), ("Ashland Middle", "Ashland"),
   ("Central Elementary", "Tewksbury"), ("Central Elementary School", "Tewksbury"),
   ("Center School", "Tewksbury"), ("TWyMS", "Tewksbury"),
   ("Milton HS", "Milton"), ("Milton High School", "Milton"),
   ("Blue hills", "Blue Hills"), ("Blue Hils", "Blue Hills"),
   ("BlueHills", "Blue Hills"),
   ("Admin", "Lilypad"), ("LL", "Lilypad"),
   ("Lilypad, Greenfield", "Greenfield"), ("Lilypad/Greenfield", "Greenfield"),
   ("Lilypad/Holbrook", "Holbrook"),
   ("salem", "Salem"), ("Salem Saltonstall", "Salem"),
   ("Saltonstall Elementary", "Salem"), ("Bentley School", "Salem"),
   ("Bentley Elementary", "Salem"),
   ("HMHS", "Holbrook"), ("GMS", "Greenfield"), ("Green Field", "Greenfield"),
   ("W.Springfield", "West Springfield"), ("West Springfield HS", "West Springfield"),
   ("WSHS- J/G.S.", "West Springfield"),
   ("Center Elementary", "Tewksbury"),
   ("Springfield", "West Springfield")]

def approved_districts : List String :=
  ["Ashland", "Blue Hills", "Bridgewater-Raynham", "Easthampton", "Greenfield",
   "Holbrook", "KIPP", "Lawrence", "Lynnfield", "Mansfield", "Milton", "Randolph",
   "Salem", "Tewksbury", "Waltham", "Wareham", "Acton-Boxborough",
   "West Springfield", "Chelsea", "New Heights", "Lilypad"]

/-- `extract_possible_district_from_note`: strip a leading time range
(with optional trailing `>`), then the text before the first `>` if any,
stripped. -/
def extract_possible_district_from_note (note : Option String) : Option String :=
  match note with
  | none => none
  | some n =>
    let t := stripL (stripLeadTimeRange (stripL n.data))
    if t.any (· = '>') then some (String.mk (stripL ((splitOnC '>' t).headD [])))
    else some (String.mk t)

/-- `standardize_district`: reject a candidate that starts like a time
range, then first alias whose lowercase form is a substring of the
lowered candidate (dict order); otherwise keep the candidate only when
it is on the approved list. -/
def standardize_district (raw_text : Option String) : Option String :=
  match raw_text with
  | none => none
  | some t =>
    let raw := stripL t.data
    if startsTimeHHMM raw then none
    else
      match district_aliases.find? (fun p => containsSub (lowerL raw) (lowerL p.1.data)) with
      | some p => some p.2
      | none =>
        if String.mk raw ∈ approved_districts then some (String.mk raw) else none

/-! ## The time-tracking explosion (`process_block`) -/

/-- One emitted time entry (`results.append({...})` in `process_block`).
All fields are scalars, so the deep-clean composite-value check of
`parse_gusto_file` never rejects an entry. -/
structure TimeEntry where
  date : Option String
  hours : Option String
  note : Option String
  estimatedHours : ℚ
  student : Option String
  district : Option String
  task : Option String
  stdTask : Option String
  category : String
  psychologist : Option String
deriving Repr, DecidableEq

/-- `[s.strip() for s in str(initials).split(",") if s.strip()]` —
note `str(None) = "None"`, so missing initials give the one-element list
`["None"]`. -/
def studentListOf (initials : Option String) : List String :=
  ((splitOnC ',' (pyStrNone initials).data).map stripL).filterMap fun s =>
    if s.isEmpty then none else some (String.mk s)

/-- A pandas cell is falsy for Python `not` only when it is the empty
string; a missing value (`NaN`) is truthy. -/
def cellFalsy (c : Option String) : Bool :=
  match c with
  | none => false
  | some s => s.data.isEmpty

/-- The body of `process_block`'s loop over one `(Hours*, Notes*)`
column pair: estimate the duration, split the note into sub-notes
(falling back to the whole note), and emit one entry per
(sub-note, student) with the duration divided by the number of
sub-notes and the per-sub-note student count. -/
def processPair (date : Option String) (psy : Option String)
    (h n : Option String) : List TimeEntry :=
  if cellFalsy h && cellFalsy n then []
  else
    let est := estimate_hours h
    let sn := split_manual_note_entries n
    let split_notes : List (Option String) := if sn.isEmpty then [n] else sn.map some
    split_notes.flatMap fun sub_note =>
      let initials := extract_student_initials sub_note
      let student_list := studentListOf initials
      let student_count : ℕ := if student_list.isEmpty then 1 else student_list.length
      let split_hours : ℚ :=
        match est with
        | some d => if d = 0 then 0 else d / split_notes.length / student_count
        | none => 0
      let district_raw := extract_possible_district_from_note sub_note
      (if student_list.isEmpty then [none] else student_list.map some).map
        fun student =>
          let task := extract_task sub_note
          { date := date, hours := h, note := sub_note,
            estimatedHours := split_hours, student := student,
            district := standardize_district district_raw, task := task,
            stdTask := standardize_task task,
            category := categorize_task (standardize_task task),
            psychologist := psy }

/-! ## CSV reading (model of `pandas.read_csv` on these exports) -/

/-- Scanner state for one CSV line: outside quotes, inside a quoted
field, or just past a `"` inside a quoted field (which either closes the
field or, doubled, escapes a literal quote). -/
inductive CsvState | normal | inQuote | afterQuote
deriving Repr, DecidableEq

/-- Split one CSV line into raw fields, handling double-quoted fields
with `""` escapes; `cur` is the reversed current field. -/
def csvGo (st : CsvState) (cur : List Char) : List Char → List (List Char)
  | [] => [cur.reverse]
  | c :: cs =>
    match st with
    | .inQuote =>
      if c = '"' then csvGo .afterQuote cur cs
      else csvGo .inQuote (c :: cur) cs
    | .afterQuote =>
      if c = '"' then csvGo .inQuote ('"' :: cur) cs
      else if c = ',' then cur.reverse :: csvGo .normal [] cs
      else csvGo .normal (c :: cur) cs
    | .normal =>
      if c = ',' then cur.reverse :: csvGo .normal [] cs
      else if c = '"' && cur.isEmpty then csvGo .inQuote cur cs
      else csvGo .normal (c :: cur) cs

def csvSplit (cs : List Char) : List (List Char) := csvGo .normal [] cs

/-- An empty CSV cell is a pandas `NaN`. -/
def cellOf (f : List Char) : Option String :=
  if f.isEmpty then none else some (String.mk f)

/-- pandas renames duplicated column names `X, X, X` to `X, X.1, X.2`. -/
def mangleDupes (cols : List String) : List String :=
  (cols.foldl
    (fun (acc : List String × List String) c =>
      let k := (acc.2.filter (· = c)).length
      (acc.1 ++ [if k = 0 then c else c ++ "." ++ toString k], acc.2 ++ [c]))
    ([], [])).1

/-- `pd.read_csv` on a list of lines: skip blank lines, first line is the
header, a data row with more fields than the header is a tokenizer
error (`none`), shorter rows are padded with `NaN`. -/
def readCSV (lines : List String) : Option (List String × List (List (Option String))) :=
  match lines.filter (fun l => !l.data.isEmpty) with
  | [] => none
  | h :: rest =>
    let cols := mangleDupes ((csvSplit h.data).map String.mk)
    let rows := rest.map fun l => csvSplit l.data
    if rows.any (fun r => cols.length < r.length) then none
    else
      some (cols, rows.map fun r =>
        r.map cellOf ++ List.replicate (cols.length - r.length) none)

/-- Value of column `name` in row `r` (`none` for a missing column or a
`NaN` cell). -/
def cellAt (cols : List String) (r : List (Option String)) (name : String) :
    Option String :=
  match cols.findIdx? (· = name) with
  | some j => r.getD j none
  | none => none

/-- Model of `pandas.to_datetime` on the date strings these exports
carry: accepts a slash-separated month/day/year digit triple, rejects
everything else. (Stands in for the full pandas date parser; only
success/failure and the carried string matter to the pipelines.) -/
def pdToDatetime (s : String) : Option String :=
  match splitOnC '/' (stripL s.data) with
  | [m, d, y] =>
    if !m.isEmpty && m.all isDigitC && m.length ≤ 2 &&
       !d.isEmpty && d.all isDigitC && d.length ≤ 2 &&
       (y.length = 2 || y.length = 4) && y.all isDigitC then
      some (String.mk (stripL s.data))
    else none
  | _ => none

/-- Decimal numeral parser standing in for Python `float()` (sign and
optional fractional part; exponent forms are not needed by these
pipelines). `none` models the raised `ValueError`. -/
def pyFloatQ (s : List Char) : Option ℚ :=
  let t := stripL s
  let sign : ℚ × List Char :=
    match t with
    | '-' :: r => (-1, r)
    | '+' :: r => (1, r)
    | _ => (1, t)
  let ip := sign.2.takeWhile isDigitC
  let r1 := sign.2.dropWhile isDigitC
  let ipv : ℚ := (ip.foldl (fun a c => a * 10 + (c.toNat - 48)) 0 : ℕ)
  match r1 with
  | [] => if ip.isEmpty then none else some (sign.1 * ipv)
  | '.' :: r2 =>
    let fp := r2.takeWhile isDigitC
    if !(r2.dropWhile isDigitC).isEmpty then none
    else if ip.isEmpty && fp.isEmpty then none
    else
      some (sign.1 * (ipv + ((fp.foldl (fun a c => a * 10 + (c.toNat - 48)) 0 : ℕ) : ℚ)
        / (10 ^ fp.length)))
  | _ => none

/-- `process_block`: parse the accumulated block lines as CSV (a parse
failure skips the whole block), keep rows whose `Total hours` coerces to
a positive number when that column exists, then explode every
`(Hours*, Notes*)` column pair of every row with a parseable date. -/
def process_block (block : List String) (psy : Option String) : List TimeEntry :=
  match readCSV block with
  | none => []
  | some (cols, rows0) =>
    let rows :=
      if "Total hours" ∈ cols then
        rows0.filter fun r =>
          match cellAt cols r "Total hours" with
          | some s => match pyFloatQ s.data with
            | some q => decide (0 < q)
            | none => false
          | none => false
      else rows0
    if rows.isEmpty then []
    else
      rows.flatMap fun r =>
        let dateRaw : Option String :=
          if "Date" ∈ cols then cellAt cols r "Date"
          else if "\"Date\"" ∈ cols then cellAt cols r "\"Date\"" else none
        match dateRaw.bind pdToDatetime with
        | none => []
        | some date =>
          let hours_cols := cols.filter fun c => "Hours".data.isPrefixOf c.data
          let notes_cols := cols.filter fun c => "Notes".data.isPrefixOf c.data
          (hours_cols.zip notes_cols).flatMap fun p =>
            processPair (some date) psy (cellAt cols r p.1) (cellAt cols r p.2)

/-- `re.search(r'Hours for (.+?) \(Contractor\)', line)`: lazy capture up
to the following marker; `"Unknown"` when the search fails. -/
def capGo (stop : List Char) : List Char → Option (List Char)
  | [] => none
  | c :: cs => if stop.isPrefixOf cs then some [c] else (capGo stop cs).map (c :: ·)

def scanForName (cs : List Char) : Option (List Char) :=
  match cs with
  | [] => none
  | _ :: rest =>
    (if "Hours for ".data.isPrefixOf cs then
       capGo " (Contractor)".data (cs.drop "Hours for ".data.length)
     else none).orElse fun _ => scanForName rest

def gustoHeaderName (line : String) : String :=
  match scanForName line.data with
  | some name => String.mk name
  | none => "Unknown"

/-- The line state machine of `parse_gusto_file` (steps 1–3): a block
header flushes the current block through `process_block`, a non-blank
line accumulates. State: (emitted rows, current psychologist, block). -/
def gustoStep (st : List TimeEntry × Option String × List String) (line : String) :
    List TimeEntry × Option String × List String :=
  let rows := st.1
  let psy := st.2.1
  let block := st.2.2
  if containsSub line.data "Hours for".data &&
     containsSub line.data "(Contractor)".data then
    (if block.isEmpty then rows else rows ++ process_block block psy,
     some (gustoHeaderName line), [])
  else if !(stripL line.data).isEmpty then (rows, psy, block ++ [line])
  else (rows, psy, block)

/-- All rows `parse_gusto_file` assembles before its final filters
(`cleaned_rows`; the composite-value deep clean keeps every entry since
all fields are scalars). -/
def gustoRawRows (content : String) : List TimeEntry :=
  let st := ((splitOnC '\n' content.data).map String.mk).foldl gustoStep ([], none, [])
  if st.2.2.isEmpty then st.1 else st.1 ++ process_block st.2.2 st.2.1

/-- `parse_gusto_file` (steps 4–6): an empty row set yields an empty
table (never an error — the function is total), otherwise rows with
non-positive estimated hours are dropped. -/
def parse_gusto_file (content : String) : List TimeEntry :=
  let safe := gustoRawRows content
  if safe.isEmpty then []
  else safe.filter fun e => decide (0 < e.estimatedHours)

/-! ## Billing-description parsing (`quickbooks_parser.py`) -/

def psychoedTerms : List String :=
  ["psychoeducational evaluation", "psychoed eval", "psychoed evaluation",
   "psychological eval", "psychological evaluation"]

/-- The primary evaluation components whose presence suppresses the
add-on components (the inline list at lines 37 and 40). -/
def primaryComponents : List String :=
  ["Full Evaluation", "Cognitive Only", "Educational Only", "Bilingual Evaluation",
   "Multilingual Evaluation", "Haitian Creole Evaluation", "Spanish Evaluation"]

/-- `extract_service_components`: base evaluation type by the
bilingual/psychoeducational/catch-all chain over the lowered
description, then the add-on components. -/
def extract_service_components (description : Option String) : List String :=
  match description with
  | none => []
  | some ds =>
    let d := lowerL ds.data
    let base : List String :=
      if containsSub d "bilingual".data then
        if containsSub d "spanish & haitian creole".data ||
           containsSub d "spanish and haitian creole".data then
          ["Multilingual Evaluation"]
        else if containsSub d "haitian creole".data then ["Haitian Creole Evaluation"]
        else if containsSub d "spanish".data then ["Spanish Evaluation"]
        else ["Bilingual Evaluation"]
      else if psychoedTerms.any (fun t => containsSub d t.data) then
        if containsSub d "cognitive only".data then ["Cognitive Only"]
        else if containsSub d "educational only".data then ["Educational Only"]
        else ["Full Evaluation"]
      else if containsSub d "evaluation".data &&
              !(["academic", "iep", "set-up", "setup"].any fun t =>
                  containsSub d t.data) then
        ["Full Evaluation"]
      else []
    let c2 :=
      if (containsSub d "academic".data &&
            (containsSub d "assessment".data || containsSub d "testing".data)) &&
         !(primaryComponents.any (· ∈ base)) then
        base ++ ["Academic Testing (Add-on)"]
      else base
    let c3 :=
      if (containsSub d "iep".data &&
            (containsSub d "meeting".data || containsSub d "presentation".data)) &&
         !(primaryComponents.any (· ∈ c2)) then
        c2 ++ ["IEP Meeting (Add-on)"]
      else c2
    let c4 := if containsSub d "rating scales".data then c3 ++ ["Rating Scales"] else c3
    if containsSub d "set-up".data || containsSub d "setup".data then
      c4 ++ ["Remote Setup"]
    else c4

/-- Scan for the leftmost position where `f` matches (`re.search`). -/
def scanFor {α : Type} (f : List Char → Option α) : List Char → Option α
  | [] => f []
  | c :: cs =>
    match f (c :: cs) with
    | some v => some v
    | none => scanFor f cs

/-- `\d+` (greedy), returning the captured digits. -/
def digits1 (cs : List Char) : Option (List Char) :=
  let ds := cs.takeWhile isDigitC
  if ds.isEmpty then none else some ds

/-- `#?\s*(\d+)` after a literal prefix (shared tail of the first two
evaluation-number patterns). The optional `#` is deterministic because
`#` is neither whitespace nor a digit. -/
def numTail (cs : List Char) : Option String :=
  let r := match cs with | '#' :: t => t | _ => cs
  (digits1 (r.dropWhile pyIsSpace)).map fun ds => String.mk ds

/-- `r'Evaluation #?\s*(\d+)'` at one position. -/
def evalPat1 (cs : List Char) : Option String :=
  if "Evaluation ".data.isPrefixOf cs then numTail (cs.drop 11) else none

/-- `r'Eval #?\s*(\d+)'` at one position. -/
def evalPat2 (cs : List Char) : Option String :=
  if "Eval ".data.isPrefixOf cs then numTail (cs.drop 5) else none

/-- `r'#\s*(\d+)'` at one position. -/
def evalPat3 (cs : List Char) : Option String :=
  match cs with
  | '#' :: t => (digits1 (t.dropWhile pyIsSpace)).map fun ds => String.mk ds
  | _ => none

/-- `r'\(#(\d+)\)'` at one position. -/
def evalPat4 (cs : List Char) : Option String :=
  match cs with
  | '(' :: '#' :: t =>
    (digits1 t).bind fun ds =>
      match t.dropWhile isDigitC with
      | ')' :: _ => some (String.mk ds)
      | _ => none
  | _ => none

/-- `r'(\d{2,})'` at one position. -/
def evalPat5 (cs : List Char) : Option String :=
  (digits1 cs).bind fun ds => if 2 ≤ ds.length then some (String.mk ds) else none

/-- The ordered evaluation-number patterns: each is `re.search`ed over
the whole description before the next is tried. -/
def evalNumOf (cs : List Char) : Option String :=
  (scanFor evalPat1 cs).orElse fun _ =>
    (scanFor evalPat2 cs).orElse fun _ =>
      (scanFor evalPat3 cs).orElse fun _ =>
        (scanFor evalPat4 cs).orElse fun _ => scanFor evalPat5 cs

/-- `r'\(([A-Z]{2,3})\)'` at one position (greedy: three letters tried
first). -/
def iniAt (cs : List Char) : Option String :=
  match cs with
  | '(' :: rest =>
    (match rest with
     | a :: b :: c :: ')' :: _ =>
       if isUpperC a && isUpperC b && isUpperC c then some (String.mk [a, b, c])
       else none
     | _ => none).orElse fun _ =>
      match rest with
      | a :: b :: ')' :: _ =>
        if isUpperC a && isUpperC b then some (String.mk [a, b]) else none
      | _ => none
  | _ => none

/-- `extract_student_info`: (initials, evaluation number, primary
service type, components) from the stripped description. The primary
service-type chain has no branch for the `Spanish Evaluation` or
`Haitian Creole Evaluation` components. -/
def extract_student_info (description : Option String) :
    Option String × Option String × Option String × List String :=
  match description with
  | none => (none, none, none, [])
  | some ds =>
    let d := stripL ds.data
    let eval_num := evalNumOf d
    let initials := scanFor iniAt d
    let components := extract_service_components (some (String.mk d))
    let service_type : Option String :=
      if components.isEmpty then none
      else if "Multilingual Evaluation" ∈ components then some "Multilingual Evaluation"
      else if components.any (fun c =>
          containsSub c.data "Bilingual".data && containsSub c.data "Evaluation".data) then
        some "Bilingual Evaluation"
      else if "Cognitive Only" ∈ components then some "Cognitive Only"
      else if "Educational Only" ∈ components then some "Educational Only"
      else if "Full Evaluation" ∈ components then some "Full Evaluation"
      else if "Academic Testing (Add-on)" ∈ components then
        some "Academic Testing (Add-on)"
      else if "IEP Meeting (Add-on)" ∈ components then some "IEP Meeting (Add-on)"
      else if "Remote Setup" ∈ components then some "Setup Fee"
      else none
    (initials, eval_num, service_type, components)

/-- Python string comparison (code-point lexicographic), for `sorted`. -/
def lexLt (a b : List Char) : Bool :=
  match a, b with
  | [], [] => false
  | [], _ :: _ => true
  | _ :: _, [] => false
  | x :: xs, y :: ys =>
    if x.toNat < y.toNat then true
    else if y.toNat < x.toNat then false
    else lexLt xs ys

def insertSorted (x : String) : List String → List String
  | [] => [x]
  | y :: ys => if lexLt x.data y.data then x :: y :: ys else y :: insertSorted x ys

def sortStrings (l : List String) : List String := l.foldr insertSorted []

/-- `' + '.join(sorted(set(components)))` — the Service Bundle string. -/
def serviceBundle (comps : List String) : String :=
  String.mk (joinWith " + ".data ((sortStrings comps.dedup).map (·.data)))

/-- `clean_amount`: strip `$` and thousands separators, parse as float,
default 0. -/
def clean_amount (c : Option String) : ℚ :=
  match c with
  | none => 0
  | some s => (pyFloatQ (s.data.filter fun ch => ch ≠ '$' && ch ≠ ',')).getD 0

/-! ## `process_quickbooks_file` -/

structure QBRecord where
  date : String
  invoiceDate : String
  customer : Option String
  invoice : Option String
  service : Option String
  description : Option String
  studentInitials : Option String
  evaluationNumber : Option String
  serviceType : Option String
  serviceComponents : List String
  amount : ℚ
  quantity : ℚ
  unitPrice : ℚ
deriving Repr, DecidableEq

def qbRequiredColumns : List String :=
  ["Transaction date", "Transaction type", "Num", "Customer",
   "Product/Service full name", "Line description", "Amount", "Quantity",
   "Sales price"]

/-- Locate the header line (`'Transaction date,Transaction type' in line`). -/
def findHeaderIdx (lines : List String) : Option ℕ :=
  lines.findIdx? fun l => containsSub l.data "Transaction date,Transaction type".data

/-- Keep the columns that are not entirely `NaN`
(`df.dropna(axis=1, how='all')`), projecting every row accordingly. -/
def dropAllNaCols (cols : List String) (rows : List (List (Option String))) :
    List String × List (List (Option String)) :=
  let keep := (List.range cols.length).filter fun j =>
    rows.any fun r => (r.getD j none).isSome
  (keep.map fun j => cols.getD j "",
   rows.map fun r => keep.map fun j => r.getD j none)

/-- Header detection, CSV read, column-name strip and all-`NaN` column
drop — the stages of `process_quickbooks_file` that can fail before the
schema check. -/
def qbParse (content : String) :
    Except String (List String × List (List (Option String))) :=
  let lines := (splitOnC '\n' content.data).map String.mk
  match findHeaderIdx lines with
  | none => Except.error "Could not find column headers in file"
  | some i =>
    match readCSV (lines.drop i) with
    | none => Except.error "Error tokenizing data"
    | some (cols0, rows0) =>
      Except.ok (dropAllNaCols (cols0.map pyStrip) rows0)

/-- `str(row.get('Transaction type','')).lower().startswith('total')` —
a `NaN` cell prints as `'nan'`, which does not start with `'total'`. -/
def isTotalRow (c : Option String) : Bool :=
  match c with
  | some s => "total".data.isPrefixOf (lowerL s.data)
  | none => false

/-- One iteration of the row loop of `process_quickbooks_file`:
skip blank-date and total rows, carry the customer forward, prefer the
service date, and build the record; a date-parse failure inside the
`try` skips the row (after the customer carry-forward already
happened). -/
def qbRowStep (cols : List String) (acc : List QBRecord × Option String)
    (r : List (Option String)) : List QBRecord × Option String :=
  match cellAt cols r "Transaction date" with
  | none => acc
  | some td =>
    if isTotalRow (cellAt cols r "Transaction type") then acc
    else
      let customer : Option String :=
        match cellAt cols r "Customer" with
        | some c => some c
        | none => acc.2
      let dater : Option String :=
        match cellAt cols r "Service date" with
        | some sd => pdToDatetime sd
        | none => pdToDatetime td
      match dater, pdToDatetime td with
      | some dt, some idt =>
        let info := extract_student_info (cellAt cols r "Line description")
        (acc.1 ++
          [{ date := dt, invoiceDate := idt, customer := customer,
             invoice := cellAt cols r "Num",
             service := cellAt cols r "Product/Service full name",
             description := cellAt cols r "Line description",
             studentInitials := info.1, evaluationNumber := info.2.1,
             serviceType := info.2.2.1, serviceComponents := info.2.2.2,
             amount := clean_amount (cellAt cols r "Amount"),
             quantity := clean_amount (cellAt cols r "Quantity"),
             unitPrice := clean_amount (cellAt cols r "Sales price") }],
         customer)
      | _, _ => (acc.1, customer)

/-- The rows-to-records fold of `process_quickbooks_file`. -/
def qbAssembled (cols : List String) (rows : List (List (Option String))) :
    List QBRecord :=
  (rows.foldl (qbRowStep cols) ([], none)).1

/-- The record list `process_quickbooks_file` assembles (empty when an
earlier stage already failed). -/
def qbRecords (content : String) : List QBRecord :=
  match qbParse content with
  | .error _ => []
  | .ok (cols, rows) =>
    if !(qbRequiredColumns.filter (· ∉ cols)).isEmpty then []
    else if rows.isEmpty then []
    else qbAssembled cols rows

/-- The validation-and-assembly tail of `process_quickbooks_file` after
a successful parse: required-column check, empty-table check, row loop,
empty-record check, non-positive-total check. The outer `except` of the
Python function re-raises each failure with the
`Error processing QuickBooks file:` prefix. -/
def qbFinish (cols : List String) (rows : List (List (Option String))) :
    Except String (List QBRecord) :=
  if !(qbRequiredColumns.filter (· ∉ cols)).isEmpty then
    .error ("Error processing QuickBooks file: Missing required columns: " ++
      String.mk (joinWith ", ".data
        (((qbRequiredColumns.filter (· ∉ cols)).map (·.data)))))
  else if rows.isEmpty then
    .error "Error processing QuickBooks file: No data found in file"
  else
    if (qbAssembled cols rows).isEmpty then
      .error
        "Error processing QuickBooks file: No valid records could be processed from the file"
    else if decide (((qbAssembled cols rows).map (·.amount)).sum ≤ 0) then
      .error
        "Error processing QuickBooks file: Total amount is zero or negative - possible data processing error"
    else .ok (qbAssembled cols rows)

def process_quickbooks_file (content : String) : Except String (List QBRecord) :=
  match qbParse content with
  | .error e => .error ("Error processing QuickBooks file: " ++ e)
  | .ok (cols, rows) => qbFinish cols rows

/-! ## Claim-side definitions

These follow the wording of the specification sentences under
examination (not the source), for comparison with the definitions
above. -/

/-- The non-empty stripped fragments of the lookahead split — the shared
final stage of all sub-note splitting formulations. -/
def laFragments (cs : List Char) : List String :=
  ((laSplit cs).map (fun p => String.mk (stripL p))).filter (· ≠ "")

/-- Sub-note splitting as claim C9 words it: split the note on
*blank-line* boundaries (a boundary needs an empty line, i.e. at least
two consecutive newlines), then the lookahead split on each resulting
piece, keeping the non-empty trimmed fragments. -/
def claimBlankLineSplit (note : Option String) : List String :=
  match note with
  | none => []
  | some n =>
    let paras := (splitRunsP (fun l : List Char => l.isEmpty) false
        (splitOnC '\n' (stripL n.data))).map (joinWith ['\n'])
    paras.flatMap laFragments

/-- Sub-note splitting as the amended claim words it: split the note at
every newline run (line boundaries), then the lookahead split on each
resulting line, keeping the non-empty trimmed fragments. -/
def amendedLineSplit (note : Option String) : List String :=
  match note with
  | none => []
  | some n =>
    (splitRunsP (fun c => c = '\n') false (stripL n.data)).flatMap laFragments

/-- Canonical rendering of a well-formed `H:MM AM/PM` time, for claim C6:
hour without a leading zero, two-digit minutes. -/
def twoDig (m : ℕ) : List Char := [Char.ofNat (48 + m / 10), Char.ofNat (48 + m % 10)]

def mkTime (h m : ℕ) (pm : Bool) : String :=
  String.mk ((if h < 10 then [Char.ofNat (48 + h)]
              else [Char.ofNat (48 + h / 10), Char.ofNat (48 + h % 10)]) ++
    ':' :: twoDig m ++ ' ' :: (if pm then ['P', 'M'] else ['A', 'M']))

/-- `"H:MM AM/PM - H:MM AM/PM"`. -/
def mkTimeRange (h1 m1 : ℕ) (p1 : Bool) (h2 m2 : ℕ) (p2 : Bool) : String :=
  String.mk ((mkTime h1 m1 p1).data ++ ' ' :: '-' :: ' ' :: (mkTime h2 m2 p2).data)

/-- Minutes since midnight of a 12-hour clock time. -/
def minutesOf (h m : ℕ) (pm : Bool) : ℕ := to24 h pm * 60 + m

/-- The three alias keys whose own lowered text contains an *earlier*
alias with a different canonical value, so that scanning them returns
the earlier alias's value instead of their own: `"Salem Saltonstall"`
and `"Saltonstall Elementary"` contain `"ll"` (the `"LL" → "Lilypad"`
alias), `"West Springfield HS"` contains `"wes"` (the
`"WES" → "Wareham"` alias). -/
def hijackedAliasKeys : List String :=
  ["Salem Saltonstall", "Saltonstall Elementary", "West Springfield HS"]

/-! ## Sanity evaluations of the embedding on concrete inputs -/

example : estimate_hours (some "9:00 AM - 10:00 AM") = some 1 := by
  have h : estimate_hours (some "9:00 AM - 10:00 AM")
      = some (round3 ((((60 : ℕ) : ℚ) * 60) / 3600)) := rfl
  rw [h]; norm_num [round3, round_eq]

example : estimate_hours (some "11:30 PM - 1:00 AM") = some (3/2) := by
  have h : estimate_hours (some "11:30 PM - 1:00 AM")
      = some (round3 ((((90 : ℕ) : ℚ) * 60) / 3600)) := rfl
  rw [h]; norm_num [round3, round_eq]

example : estimate_hours (some "9 AM - 5 PM") = some 8 := by
  have h : estimate_hours (some "9 AM - 5 PM")
      = some (round3 ((((480 : ℕ) : ℚ) * 60) / 3600)) := rfl
  rw [h]; norm_num [round3, round_eq]

example : estimate_hours (some "9:00AM - 10:00AM") = none := by decide

example : estimate_hours (some "hello") = none := by decide

example : estimate_hours none = none := by decide

example : split_manual_note_entries none = [] := by decide

example : split_manual_note_entries (some "") = [] := by decide

example : split_manual_note_entries (some "Lunch\nDinner") = ["Lunch", "Dinner"] := by
  decide

example : split_manual_note_entries
    (some "9:00 - 10:00 eval 10:30-11:00 report")
    = ["9:00 - 10:00 eval", "1", "0:30-11:00 report"] := by decide

example : extract_student_initials
    (some "9:00 - 10:00 > Lawrence > AB, CD > Testing") = some "AB, CD" := by decide

example : extract_task (some "Lawrence > AB > Report writing - draft")
    = some "Report writing" := by decide

example : standardize_task (some "Report writing - draft") = some "Report Writing" := by
  decide

example : categorize_task (some "Report Writing") = "Evaluation" := by decide

example : standardize_district (some "Lawrence High") = some "Lawrence" := by decide

example : standardize_district (some "lhs") = some "Lawrence" := by decide

example : standardize_district (some "Chelsea") = some "Chelsea" := by decide

example : standardize_district (some "chelsea") = none := by decide

example : standardize_district (some "9:00 - 10:00") = none := by decide

example : standardize_district (some "nowhere") = none := by decide

example : extract_possible_district_from_note
    (some "9:00 AM - 10:00 AM > Lawrence High > AB") = some "Lawrence High" := by decide

example : csvSplit "a,\"b, c\",,\"d\"\"e\"".data
    = ["a".data, "b, c".data, "".data, "d\"e".data] := by decide

example : extract_service_components (some "Spanish Bilingual Psychoeducational Evaluation #45 (MK)")
    = ["Spanish Evaluation"] := by decide

example : serviceBundle ["Rating Scales", "Full Evaluation", "Rating Scales"]
    = "Full Evaluation + Rating Scales" := by decide

example : evalNumOf "Psychoed eval (see #12)".data = some "12" := by decide

example : scanFor iniAt "Evaluation #45 (MK)".data = some "MK" := by decide

/-! ## Helper lemmas -/

theorem sum_map_flatMap {α β : Type} (l : List α) (f : α → List β) (g : β → ℚ) :
    ((l.flatMap f).map g).sum = (l.map fun a => ((f a).map g).sum).sum := by
  induction l with
  | nil => simp
  | cons a l ih => simp [List.flatMap_cons, List.map_append, List.sum_append, ih]

theorem sum_map_constQ {α : Type} (l : List α) (c : ℚ) :
    (l.map fun _ => c).sum = l.length * c := by
  induction l with
  | nil => simp
  | cons a l ih => simp [ih]; ring

theorem sum_map_estHours {α : Type} (l : List α) (mk : α → TimeEntry) (v : ℚ)
    (hmk : ∀ a, (mk a).estimatedHours = v) :
    ((l.map mk).map TimeEntry.estimatedHours).sum = l.length * v := by
  rw [List.map_map, show (TimeEntry.estimatedHours ∘ mk) = fun _ => v from
    funext fun a => hmk a, sum_map_constQ]

/-! ## C1: hours conservation of the explosion -/

/-- **C1.** For one (hours-column, notes-column) pair whose raw time
range parses to a duration `d`, the estimated hours of the entries that
`process_block` emits for that pair sum back to `d` exactly: the note is
split into `k ≥ 1` sub-notes, sub-note `i` yields `cᵢ ≥ 1` students
(the placeholder list when none are found), and each of its `cᵢ` entries
carries `d / k / cᵢ`. -/
theorem hours_conservation (date psy h n : Option String) (d : ℚ)
    (hp : estimate_hours h = some d) :
    ((processPair date psy h n).map TimeEntry.estimatedHours).sum = d := by
  have hfalsy : cellFalsy h = false := by
    cases h with
    | none => simp [estimate_hours] at hp
    | some s =>
      cases hs : s.data with
      | nil => simp [estimate_hours, hs] at hp
      | cons c cs => simp [cellFalsy, hs]
  unfold processPair
  rw [hfalsy]
  simp only [Bool.false_and, if_neg (by simp : ¬ (false = true))]
  rw [hp]
  set sn := split_manual_note_entries n with hsn
  set split_notes : List (Option String) :=
    if sn.isEmpty then [n] else sn.map some with hspl
  have hk : split_notes ≠ [] := by
    rw [hspl]
    by_cases hc : sn.isEmpty
    · simp [hc]
    · simp [hc]
      intro habs
      exact hc (by simp [habs])
  have hkq : ((split_notes.length : ℚ)) ≠ 0 := by
    have : 0 < split_notes.length := List.length_pos.mpr hk
    exact_mod_cast Nat.pos_iff_ne_zero.mp this
  rw [sum_map_flatMap]
  have step2 : ∀ l : List (Option String),
      (l.map fun _ => d / (split_notes.length : ℚ)).sum
        = l.length * (d / split_notes.length) := fun l => sum_map_constQ l _
  calc _ = (split_notes.map fun _ => d / (split_notes.length : ℚ)).sum := by
        apply congrArg List.sum
        apply List.map_congr_left
        intro sub _
        set sl := studentListOf (extract_student_initials sub) with hsl
        by_cases hemp : sl.isEmpty
        · rw [if_pos hemp, if_pos hemp,
            sum_map_estHours _ _ (if d = 0 then 0
              else d / (split_notes.length : ℚ) / ((1 : ℕ) : ℚ)) (fun a => rfl)]
          by_cases hd : d = 0
          · simp [hd]
          · simp [hd]
        · rw [if_neg hemp, if_neg hemp,
            sum_map_estHours _ _ (if d = 0 then 0
              else d / (split_notes.length : ℚ) / ((sl.length : ℕ) : ℚ)) (fun a => rfl)]
          have hcq : ((sl.length : ℕ) : ℚ) ≠ 0 := by
            have : sl ≠ [] := fun habs => hemp (by simp [habs])
            have : 0 < sl.length := List.length_pos.mpr this
            exact_mod_cast Nat.pos_iff_ne_zero.mp this
          by_cases hd : d = 0
          · simp [hd]
          · rw [if_neg hd, List.length_map]
            field_simp
            ring
    _ = d := by
        rw [step2]
        field_simp

/-- Witness for C1 at a concrete pair: a 2-hour range and a note with
two students. -/
theorem hours_conservation_instance :
    estimate_hours (some "9:00 AM - 11:00 AM") = some 2 ∧
    ((processPair none none (some "9:00 AM - 11:00 AM")
        (some "LHS > AB, CD > testing")).map TimeEntry.estimatedHours).sum = 2 := by
  have h1 : estimate_hours (some "9:00 AM - 11:00 AM")
      = some (round3 ((((120 : ℕ) : ℚ) * 60) / 3600)) := rfl
  have h2 : estimate_hours (some "9:00 AM - 11:00 AM") = some 2 := by
    rw [h1]; norm_num [round3, round_eq]
  exact ⟨h2, hours_conservation none none _ _ 2 h2⟩

/-! ## C2: round-trip scenario A -/

/-- **C2 (code evaluation).** Tracing the scenario-A note through
`process_block`'s explosion: duration, site, case initials and the
0.5-hour split come out as the claim states, but `extract_task` does not
skip the leading time-range field (unlike `extract_student_initials` and
`extract_possible_district_from_note`, and unlike `parse_note_format`,
which strips the time range before calling it), so the extracted task is
the initials field `"AB, CD"`, which standardizes to the title-cased
fallback `"Ab, Cd"` and lands in category `"Uncategorized"` — not
`"Testing"` / `"Evaluation"`. -/
theorem scenario_a_trace :
    estimate_hours (some "9:00 AM - 10:00 AM") = some 1 ∧
    split_manual_note_entries
        (some "9:00 AM - 10:00 AM > Lawrence High > AB, CD > Testing - initial session")
      = ["9:00 AM - 10:00 AM > Lawrence High > AB, CD > Testing - initial session"] ∧
    extract_student_initials
        (some "9:00 AM - 10:00 AM > Lawrence High > AB, CD > Testing - initial session")
      = some "AB, CD" ∧
    studentListOf (some "AB, CD") = ["AB", "CD"] ∧
    extract_possible_district_from_note
        (some "9:00 AM - 10:00 AM > Lawrence High > AB, CD > Testing - initial session")
      = some "Lawrence High" ∧
    standardize_district (some "Lawrence High") = some "Lawrence" ∧
    extract_task
        (some "9:00 AM - 10:00 AM > Lawrence High > AB, CD > Testing - initial session")
      = some "AB, CD" ∧
    standardize_task (some "AB, CD") = some "Ab, Cd" ∧
    categorize_task (some "Ab, Cd") = "Uncategorized" ∧
    (processPair none none (some "9:00 AM - 10:00 AM")
        (some "9:00 AM - 10:00 AM > Lawrence High > AB, CD > Testing - initial session")).map
        TimeEntry.student = [some "AB", some "CD"] ∧
    (processPair none none (some "9:00 AM - 10:00 AM")
        (some "9:00 AM - 10:00 AM > Lawrence High > AB, CD > Testing - initial session")).map
        TimeEntry.estimatedHours = [1/2, 1/2] := by
  have hhalf : (processPair none none (some "9:00 AM - 10:00 AM")
      (some "9:00 AM - 10:00 AM > Lawrence High > AB, CD > Testing - initial session")).map
      TimeEntry.estimatedHours
      = [(if round3 ((((60 : ℕ) : ℚ) * 60) / 3600) = 0 then 0
          else round3 ((((60 : ℕ) : ℚ) * 60) / 3600) / ((1 : ℕ) : ℚ) / ((2 : ℕ) : ℚ)),
         (if round3 ((((60 : ℕ) : ℚ) * 60) / 3600) = 0 then 0
          else round3 ((((60 : ℕ) : ℚ) * 60) / 3600) / ((1 : ℕ) : ℚ) / ((2 : ℕ) : ℚ))] := rfl
  have hr : round3 ((((60 : ℕ) : ℚ) * 60) / 3600) = 1 := by
    norm_num [round3, round_eq]
  have hest : estimate_hours (some "9:00 AM - 10:00 AM") = some 1 := by
    have h1 : estimate_hours (some "9:00 AM - 10:00 AM")
        = some (round3 ((((60 : ℕ) : ℚ) * 60) / 3600)) := rfl
    rw [h1, hr]
  refine ⟨hest, by decide, by decide, by decide, by decide, by decide, by decide,
    by decide, by decide, by decide, ?_⟩
  rw [hhalf, hr]
  norm_num

/-! ## C3: round-trip scenario B -/

/-- **C3 (code evaluation).** The scenario-B billing description yields
initials `"MK"`, evaluation number `"45"` and the single component
`"Spanish Evaluation"` (hence that Service Bundle), but the primary
service type is `none`: the service-type chain of `extract_student_info`
has no branch matching the `"Spanish Evaluation"` component (its
bilingual branch only matches components containing the word
`"Bilingual"`), so the claim's primary type `"Spanish Evaluation"` is
never produced. -/
theorem scenario_b_trace :
    extract_student_info (some "Spanish Bilingual Psychoeducational Evaluation #45 (MK)")
      = (some "MK", some "45", none, ["Spanish Evaluation"]) ∧
    serviceBundle ["Spanish Evaluation"] = "Spanish Evaluation" := by
  constructor
  · decide
  · decide

/-! ## C4: evaluation + IEP-meeting add-on on one line -/

/-- **C4 (counterexample).** A description containing both a full
psychoeducational-evaluation phrase and an IEP-meeting phrase does
*not* get the `IEP Meeting (Add-on)` component: the add-on is
suppressed whenever a primary evaluation component was already
detected, so the claim that the component set (and bundle) contains
both is false. -/
theorem evaluation_with_iep_addon_cex :
    containsSub (lowerL "Psychoeducational Evaluation with IEP Meeting (AB)".data)
        "psychoeducational evaluation".data = true ∧
    containsSub (lowerL "Psychoeducational Evaluation with IEP Meeting (AB)".data)
        "iep".data = true ∧
    containsSub (lowerL "Psychoeducational Evaluation with IEP Meeting (AB)".data)
        "meeting".data = true ∧
    extract_service_components (some "Psychoeducational Evaluation with IEP Meeting (AB)")
      = ["Full Evaluation"] ∧
    "IEP Meeting (Add-on)" ∉
      extract_service_components (some "Psychoeducational Evaluation with IEP Meeting (AB)") := by
  refine ⟨by decide, by decide, by decide, by decide, by decide⟩

/-- **C4 (amended).** For every already-stripped description containing
a full-evaluation phrase (one of the psychoeducational terms, with no
bilingual / cognitive-only / educational-only qualifier) together with
an IEP-meeting add-on phrase, the primary service type is
`Full Evaluation`, the component set contains the evaluation component,
the IEP-meeting add-on component is suppressed (not added), and the
add-on is never the primary service type. -/
theorem evaluation_with_iep_addon (ds : String)
    (hstrip : stripL ds.data = ds.data)
    (hb : containsSub (lowerL ds.data) "bilingual".data = false)
    (hp : psychoedTerms.any (fun t => containsSub (lowerL ds.data) t.data) = true)
    (hc : containsSub (lowerL ds.data) "cognitive only".data = false)
    (he : containsSub (lowerL ds.data) "educational only".data = false)
    (hi : containsSub (lowerL ds.data) "iep".data = true)
    (hm : (containsSub (lowerL ds.data) "meeting".data ||
           containsSub (lowerL ds.data) "presentation".data) = true) :
    "Full Evaluation" ∈ extract_service_components (some ds) ∧
    "IEP Meeting (Add-on)" ∉ extract_service_components (some ds) ∧
    (extract_student_info (some ds)).2.2.1 = some "Full Evaluation" ∧
    (extract_student_info (some ds)).2.2.1 ≠ some "IEP Meeting (Add-on)" := by
  have hmk : String.mk ds.data = ds := rfl
  cases hra : containsSub (lowerL ds.data) "rating scales".data <;>
    cases hs1 : containsSub (lowerL ds.data) "set-up".data <;>
      cases hs2 : containsSub (lowerL ds.data) "setup".data <;>
        simp [extract_service_components, extract_student_info, hstrip, hmk, hb, hp,
          hc, he, hi, hm, hra, hs1, hs2, primaryComponents] <;> decide

/-- Witness for C4 at a concrete description. -/
theorem evaluation_with_iep_addon_instance :
    "Full Evaluation" ∈
      extract_service_components (some "Psychoed evaluation plus IEP presentation (XY)") ∧
    "IEP Meeting (Add-on)" ∉
      extract_service_components (some "Psychoed evaluation plus IEP presentation (XY)") ∧
    (extract_student_info (some "Psychoed evaluation plus IEP presentation (XY)")).2.2.1
      = some "Full Evaluation" ∧
    (extract_student_info (some "Psychoed evaluation plus IEP presentation (XY)")).2.2.1
      ≠ some "IEP Meeting (Add-on)" :=
  evaluation_with_iep_addon "Psychoed evaluation plus IEP presentation (XY)"
    (by decide) (by decide) (by decide) (by decide) (by decide) (by decide) (by decide)

/-! ## C5: properties of `standardize_district` -/

theorem pyIsSpace_lowerC (c : Char) : pyIsSpace (lowerC c) = pyIsSpace c := by
  unfold lowerC
  split <;> rfl

theorem pyIsSpace_comp_lowerC : (pyIsSpace ∘ lowerC) = pyIsSpace :=
  funext pyIsSpace_lowerC

theorem isDigitC_lowerC (c : Char) : isDigitC (lowerC c) = isDigitC c := by
  unfold lowerC
  split <;> rfl

theorem lowerC_eq_colon (c : Char) : lowerC c = ':' ↔ c = ':' := by
  unfold lowerC
  split <;> simp_all

theorem dropWhile_lowerL (cs : List Char) :
    (lowerL cs).dropWhile pyIsSpace = lowerL (cs.dropWhile pyIsSpace) := by
  unfold lowerL
  rw [List.dropWhile_map, pyIsSpace_comp_lowerC]

theorem stripL_lowerL (cs : List Char) :
    stripL (lowerL cs) = lowerL (stripL cs) := by
  unfold stripL dropTrail
  rw [dropWhile_lowerL]
  rw [show (lowerL (cs.dropWhile pyIsSpace)).reverse
      = lowerL (cs.dropWhile pyIsSpace).reverse from (List.map_reverse _ _).symm]
  rw [dropWhile_lowerL]
  exact (List.map_reverse _ _).symm

theorem startsTimeHHMM_lowerL (cs : List Char) :
    startsTimeHHMM (lowerL cs) = startsTimeHHMM cs := by
  rcases cs with _ | ⟨a, _ | ⟨b, _ | ⟨c, _ | ⟨d, _ | ⟨e, rest⟩⟩⟩⟩⟩ <;>
    simp only [startsTimeHHMM, hhmmSplit, lowerL, List.map_nil, List.map_cons,
      isDigitC_lowerC, lowerC_eq_colon] <;>
    split_ifs <;> simp_all

theorem matchTimeRangeAt_starts {cs : List Char}
    (h : matchTimeRangeAt cs = true) : startsTimeHHMM cs = true := by
  unfold matchTimeRangeAt at h
  rw [List.any_eq_true] at h
  obtain ⟨r1, hr1, -⟩ := h
  unfold startsTimeHHMM
  cases hh : hhmmSplit cs with
  | nil => rw [hh] at hr1; cases hr1
  | cons x xs => simp

/-- The per-key facts of the alias table, checked by evaluation: no key
starts like a time range, and scanning the table with the lowered,
stripped text of any non-hijacked key finds an alias carrying that
key's canonical name. -/
theorem alias_table_facts : ∀ p ∈ district_aliases,
    startsTimeHHMM (stripL p.1.data) = false ∧
    (p.1 ∉ hijackedAliasKeys →
      (district_aliases.find? fun q =>
          containsSub (lowerL (stripL p.1.data)) (lowerL q.1.data)).map Prod.snd
        = some p.2) := by decide

/-- **C5 (counterexample).** The approved name `"West Springfield"` does
*not* normalize to itself: its lowered text contains the alias `"WES"`
(lowercase `"wes"` is a substring of `"west"`), which is scanned before
the `"Springfield" → "West Springfield"` alias and maps to `"Wareham"`.
So idempotence on the allow-list fails. -/
theorem standardize_district_cex :
    "West Springfield" ∈ approved_districts ∧
    standardize_district (some "West Springfield") = some "Wareham" ∧
    standardize_district (some "West Springfield") ≠ some "West Springfield" := by
  refine ⟨by decide, by decide, by decide⟩

/-- **C5 (amended).** `standardize_district`: (a) every approved
district name other than `"West Springfield"` normalizes to itself;
(b) any upper/lower-case variant of an alias key outside
`hijackedAliasKeys` normalizes to that key's canonical name; (c) an
already-stripped candidate containing no alias key as a
case-insensitive substring and not on the approved list normalizes to
`none`; (d) a candidate whose stripped text begins with a bare time
range normalizes to `none`. -/
theorem standardize_district_spec :
    (∀ name ∈ approved_districts, name ≠ "West Springfield" →
        standardize_district (some name) = some name) ∧
    (∀ p ∈ district_aliases, p.1 ∉ hijackedAliasKeys →
        ∀ s : String, lowerL s.data = lowerL p.1.data →
        standardize_district (some s) = some p.2) ∧
    (∀ s : String, stripL s.data = s.data →
        (∀ p ∈ district_aliases, containsSub (lowerL s.data) (lowerL p.1.data) = false) →
        s ∉ approved_districts → standardize_district (some s) = none) ∧
    (∀ s : String, matchTimeRangeAt (stripL s.data) = true →
        standardize_district (some s) = none) := by
  refine ⟨by decide, ?_, ?_, ?_⟩
  · intro p hmem hnh s hls
    obtain ⟨hguard, hfind0⟩ := alias_table_facts p hmem
    have hfind := hfind0 hnh
    have e1 : lowerL (stripL s.data) = lowerL (stripL p.1.data) := by
      rw [← stripL_lowerL, hls, stripL_lowerL]
    have e2 : startsTimeHHMM (stripL s.data) = false := by
      rw [← startsTimeHHMM_lowerL, e1, startsTimeHHMM_lowerL]
      exact hguard
    obtain ⟨q, hq, hq2⟩ := Option.map_eq_some'.mp hfind
    simp only [standardize_district]
    rw [if_neg (by simp [e2])]
    rw [show (fun q : String × String =>
          containsSub (lowerL (stripL s.data)) (lowerL q.1.data))
        = fun q : String × String =>
          containsSub (lowerL (stripL p.1.data)) (lowerL q.1.data) from by
      funext q; rw [e1]]
    rw [hq]
    simpa using hq2
  · intro s hstrip hno happ
    cases hg : startsTimeHHMM (stripL s.data) with
    | true =>
      simp only [standardize_district]
      rw [if_pos hg]
    | false =>
      have hfind : (district_aliases.find? fun q : String × String =>
          containsSub (lowerL (stripL s.data)) (lowerL q.1.data)) = none := by
        rw [List.find?_eq_none]
        intro p hp
        rw [hstrip]
        simp [hno p hp]
      have heta : ({ data := s.data } : String) = s := rfl
      simp only [standardize_district]
      rw [if_neg (by simp [hg]), hfind, hstrip, heta]
      simp [happ]
  · intro s h
    have hg : startsTimeHHMM (stripL s.data) = true := matchTimeRangeAt_starts h
    simp only [standardize_district]
    rw [if_pos hg]

/-- Witness for C5 at concrete inputs, one per part. -/
theorem standardize_district_spec_instance :
    standardize_district (some "Ashland") = some "Ashland" ∧
    standardize_district (some "wEs") = some "Wareham" ∧
    standardize_district (some "zzz") = none ∧
    standardize_district (some "9:00 - 10:00 leftover") = none :=
  ⟨standardize_district_spec.1 "Ashland" (by decide) (by decide),
   standardize_district_spec.2.1 ("WES", "Wareham") (by decide) (by decide) "wEs"
     (by decide),
   standardize_district_spec.2.2.1 "zzz" (by decide) (by decide) (by decide),
   standardize_district_spec.2.2.2 "9:00 - 10:00 leftover" (by decide)⟩

/-! ## C9: sub-note splitting -/

theorem dropWhile_idemP (p : Char → Bool) (l : List Char) :
    (l.dropWhile p).dropWhile p = l.dropWhile p := by
  induction l with
  | nil => rfl
  | cons a l ih =>
    by_cases h : p a
    · simp [List.dropWhile_cons, h, ih]
    · simp [List.dropWhile_cons, h]

theorem dropWhile_cons_head {p : Char → Bool} (l : List Char) (c : Char)
    (cs : List Char) (h : l.dropWhile p = c :: cs) : p c = false := by
  induction l with
  | nil => cases h
  | cons a l ih =>
    by_cases ha : p a
    · rw [List.dropWhile_cons, if_pos ha] at h
      exact ih h
    · rw [List.dropWhile_cons, if_neg ha] at h
      cases h
      simpa using ha

theorem dropTrail_idem (l : List Char) : dropTrail (dropTrail l) = dropTrail l := by
  unfold dropTrail
  rw [List.reverse_reverse, dropWhile_idemP]

theorem stripL_idem (l : List Char) : stripL (stripL l) = stripL l := by
  unfold stripL
  have h1 : (dropTrail (l.dropWhile pyIsSpace)).dropWhile pyIsSpace
      = dropTrail (l.dropWhile pyIsSpace) := by
    cases hdm : dropTrail (l.dropWhile pyIsSpace) with
    | nil => rfl
    | cons c cs =>
      have hsfx : (l.dropWhile pyIsSpace).reverse.dropWhile pyIsSpace
          <:+ (l.dropWhile pyIsSpace).reverse := List.dropWhile_suffix _
      have hpre : dropTrail (l.dropWhile pyIsSpace) <+: l.dropWhile pyIsSpace := by
        have := List.reverse_prefix.mpr hsfx
        rwa [List.reverse_reverse] at this
      obtain ⟨t, ht⟩ := hpre
      rw [hdm] at ht
      have hc : pyIsSpace c = false :=
        dropWhile_cons_head l c (cs ++ t) (by rw [← ht]; simp)
      rw [List.dropWhile_cons, if_neg (by simp [hc])]
  rw [h1, dropTrail_idem]

theorem pyStrip_mk_stripL (p : List Char) :
    pyStrip (String.mk (stripL p)) = String.mk (stripL p) := by
  unfold pyStrip
  rw [show (String.mk (stripL p)).data = stripL p from rfl, stripL_idem]

theorem foldl_append_eq_flatMap {α β : Type} (l : List α) (f : α → List β) :
    l.foldl (fun acc a => acc ++ f a) [] = l.flatMap f := by
  suffices h : ∀ acc, l.foldl (fun acc a => acc ++ f a) acc = acc ++ l.flatMap f by
    simpa using h []
  induction l with
  | nil => simp
  | cons a l ih =>
    intro acc
    simp [List.flatMap_cons, ih, List.append_assoc]

theorem filterMap_strip_eq (l : List (List Char)) :
    (l.filterMap fun p =>
        let q := stripL p
        if q.isEmpty then none else some (String.mk q))
      = (l.map fun p => String.mk (stripL p)).filter (· ≠ "") := by
  induction l with
  | nil => rfl
  | cons p l ih =>
    by_cases h : (stripL p).isEmpty
    · have hq : stripL p = [] := by simpa using h
      simp [List.filterMap_cons, List.filter_cons, hq, String.ext_iff]
      simpa [String.ext_iff] using ih
    · have hq : stripL p ≠ [] := by simpa using h
      have hne : String.mk (stripL p) ≠ "" := by
        simpa [String.ext_iff] using hq
      simp [List.filterMap_cons, List.filter_cons, hq, hne]
      simpa using ih

/-- **C9 (counterexample).** A two-line note with *no* blank line is
nonetheless split in two: `re.split(r'\n+', …)` splits at every newline
run, not only at blank-line boundaries, so the claim's blank-line
formulation disagrees with the code on `"Lunch\nDinner"`. -/
theorem subnote_split_blankline_cex :
    split_manual_note_entries (some "Lunch\nDinner") = ["Lunch", "Dinner"] ∧
    claimBlankLineSplit (some "Lunch\nDinner") = ["Lunch\nDinner"] ∧
    split_manual_note_entries (some "Lunch\nDinner")
      ≠ claimBlankLineSplit (some "Lunch\nDinner") := by
  refine ⟨by decide, by decide, by decide⟩

/-- **C9 (amended).** `split_manual_note_entries` splits the stripped
note at every newline run (line boundaries, not blank-line boundaries),
then at every embedded time-range start (lookahead split), and returns
exactly the non-empty trimmed fragments; every returned fragment is
non-empty and strip-invariant, and a missing note returns `[]`. -/
theorem subnote_split_amended (note : Option String) :
    split_manual_note_entries note = amendedLineSplit note ∧
    ∀ f ∈ split_manual_note_entries note, f ≠ "" ∧ pyStrip f = f := by
  have key : split_manual_note_entries note = amendedLineSplit note := by
    cases note with
    | none => rfl
    | some n =>
      simp only [split_manual_note_entries, amendedLineSplit]
      rw [foldl_append_eq_flatMap]
      congr 1
      funext e
      rw [filterMap_strip_eq]
      rfl
  refine ⟨key, ?_⟩
  intro f hf
  rw [key] at hf
  cases note with
  | none => cases hf
  | some n =>
    simp only [amendedLineSplit] at hf
    rw [List.mem_flatMap] at hf
    obtain ⟨e, -, hfe⟩ := hf
    unfold laFragments at hfe
    rw [List.mem_filter] at hfe
    obtain ⟨hmem, hne⟩ := hfe
    rw [List.mem_map] at hmem
    obtain ⟨p, -, hp⟩ := hmem
    refine ⟨by simpa using hne, ?_⟩
    rw [← hp]
    exact pyStrip_mk_stripL p

/-- Witness for C9 at a concrete note and fragment. -/
theorem subnote_split_amended_instance :
    split_manual_note_entries (some "Lunch\nDinner")
      = amendedLineSplit (some "Lunch\nDinner") ∧
    ("Lunch" ≠ "" ∧ pyStrip "Lunch" = "Lunch") :=
  ⟨(subnote_split_amended (some "Lunch\nDinner")).1,
   (subnote_split_amended (some "Lunch\nDinner")).2 "Lunch" (by decide)⟩

/-! ## C7 / C8 / C10: pipeline failure behavior -/

theorem isPrefixOf_append_self (p rest : List Char) :
    p.isPrefixOf (p ++ rest) = true := by
  induction p with
  | nil => simp [List.isPrefixOf]
  | cons c cs ih => simp [List.isPrefixOf, ih]

theorem containsSub_nil_pat (l : List Char) : containsSub l [] = true := by
  cases l <;> simp [containsSub, List.isPrefixOf]

theorem containsSub_self_append (p rest : List Char) :
    containsSub (p ++ rest) p = true := by
  cases p with
  | nil => simp [containsSub_nil_pat]
  | cons c cs => simp [containsSub, isPrefixOf_append_self]

theorem containsSub_append_left (a b p : List Char)
    (h : containsSub b p = true) : containsSub (a ++ b) p = true := by
  induction a with
  | nil => simpa using h
  | cons c a ih =>
    rw [List.cons_append]
    unfold containsSub
    rw [ih]
    simp

theorem containsSub_joinWith_of_mem (sep : List Char) (l : List (List Char))
    (p : List Char) (h : p ∈ l) : containsSub (joinWith sep l) p = true := by
  induction l with
  | nil => cases h
  | cons x xs ih =>
    cases h with
    | head =>
      cases xs with
      | nil => simpa [joinWith] using containsSub_self_append p []
      | cons y ys =>
        have := containsSub_self_append p (sep ++ joinWith sep (y :: ys))
        simpa [joinWith, List.append_assoc] using this
    | tail _ hmem =>
      cases xs with
      | nil => cases hmem
      | cons y ys =>
        have hj := ih hmem
        show containsSub (x ++ sep ++ joinWith sep (y :: ys)) p = true
        exact containsSub_append_left (x ++ sep) _ _ hj

/-- **C7.** Empty-result asymmetry: whenever the billing pipeline
assembles zero records (for any reason), `process_quickbooks_file`
returns an error to its caller; whenever the time-tracking pipeline
assembles zero rows, `parse_gusto_file` returns the empty table — and
being a total function into `List TimeEntry`, it can never raise. -/
theorem empty_result_asymmetry :
    (∀ content : String, qbRecords content = [] →
        ∃ msg, process_quickbooks_file content = Except.error msg) ∧
    (∀ content : String, gustoRawRows content = [] →
        parse_gusto_file content = []) := by
  constructor
  · intro content hrec
    unfold qbRecords at hrec
    unfold process_quickbooks_file
    cases hq : qbParse content with
    | error e => exact ⟨_, rfl⟩
    | ok pr =>
      obtain ⟨cols, rows⟩ := pr
      rw [hq] at hrec
      have hrec2 : (if !(qbRequiredColumns.filter (· ∉ cols)).isEmpty then
            ([] : List QBRecord)
          else if rows.isEmpty then [] else qbAssembled cols rows) = [] := hrec
      have key : ∃ msg, qbFinish cols rows = Except.error msg := by
        unfold qbFinish
        cases hmiss : (qbRequiredColumns.filter (· ∉ cols)).isEmpty with
        | false => exact ⟨_, by rw [if_pos (by decide)]⟩
        | true =>
          rw [if_neg (by rw [hmiss]; decide)] at hrec2
          cases hrows : rows.isEmpty with
          | true => exact ⟨_, by rw [if_neg (by decide), if_pos (by decide)]⟩
          | false =>
            rw [if_neg (by rw [hrows]; decide)] at hrec2
            exact ⟨_, by rw [if_neg (by decide), if_neg (by decide),
              if_pos (by rw [hrec2]; decide)]⟩
      obtain ⟨msg, hmsg⟩ := key
      exact ⟨msg, hmsg⟩
  · intro content h
    unfold parse_gusto_file
    rw [h]
    rfl

/-- Witness for C7: a file with no billing header yields zero records
and an error; a one-line non-header file yields zero gusto rows and the
empty table. -/
theorem empty_result_asymmetry_instance :
    (qbRecords "x" = [] ∧ ∃ msg, process_quickbooks_file "x" = Except.error msg) ∧
    (gustoRawRows "x" = [] ∧ parse_gusto_file "x" = []) :=
  ⟨⟨by decide, empty_result_asymmetry.1 "x" (by decide)⟩,
   ⟨by decide, empty_result_asymmetry.2 "x" (by decide)⟩⟩

/-- **C8.** A billing file whose detected (cleaned) header lacks the
`Amount` column makes `process_quickbooks_file` raise, and the error
message names `Amount` (it lists every missing required column). -/
theorem missing_amount_column_error :
    ∀ (content : String) (cols : List String) (rows : List (List (Option String))),
      qbParse content = Except.ok (cols, rows) →
      "Amount" ∉ cols →
      ∃ msg, process_quickbooks_file content = Except.error msg ∧
        containsSub msg.data "Amount".data = true := by
  intro content cols rows hq hno
  have hmem : "Amount" ∈ qbRequiredColumns.filter (· ∉ cols) := by
    rw [List.mem_filter]
    exact ⟨by decide, by simpa using hno⟩
  have hne : (qbRequiredColumns.filter (· ∉ cols)).isEmpty = false := by
    cases hl : (qbRequiredColumns.filter (· ∉ cols)) with
    | nil => rw [hl] at hmem; cases hmem
    | cons a l => rfl
  refine ⟨"Error processing QuickBooks file: Missing required columns: " ++
      String.mk (joinWith ", ".data
        ((qbRequiredColumns.filter (· ∉ cols)).map (·.data))), ?_, ?_⟩
  · unfold process_quickbooks_file
    rw [hq]
    show qbFinish cols rows = Except.error _
    unfold qbFinish
    rw [if_pos (by rw [hne]; decide)]
  · have hmemd : "Amount".data ∈ ((qbRequiredColumns.filter (· ∉ cols)).map (·.data)) :=
      List.mem_map_of_mem _ hmem
    have hjoin := containsSub_joinWith_of_mem ", ".data _ _ hmemd
    rw [show ("Error processing QuickBooks file: Missing required columns: " ++
        String.mk (joinWith ", ".data
          ((qbRequiredColumns.filter (· ∉ cols)).map (·.data)))).data
      = "Error processing QuickBooks file: Missing required columns: ".data ++
        joinWith ", ".data ((qbRequiredColumns.filter (· ∉ cols)).map (·.data)) from rfl]
    exact containsSub_append_left _ _ _ hjoin

/-- **C10.** A billing input that parses to a non-empty record set whose
amounts sum to zero or below makes `process_quickbooks_file` raise
instead of returning the records. -/
theorem nonpositive_total_error :
    ∀ content : String, qbRecords content ≠ [] →
      ((qbRecords content).map QBRecord.amount).sum ≤ 0 →
      ∃ msg, process_quickbooks_file content = Except.error msg := by
  intro content hne hsum
  unfold qbRecords at hne hsum
  unfold process_quickbooks_file
  cases hq : qbParse content with
  | error e => exact ⟨_, rfl⟩
  | ok pr =>
    obtain ⟨cols, rows⟩ := pr
    rw [hq] at hne hsum
    have hne2 : (if !(qbRequiredColumns.filter (· ∉ cols)).isEmpty then
          ([] : List QBRecord)
        else if rows.isEmpty then [] else qbAssembled cols rows) ≠ [] := hne
    have hsum2 : ((if !(qbRequiredColumns.filter (· ∉ cols)).isEmpty then
          ([] : List QBRecord)
        else if rows.isEmpty then [] else qbAssembled cols rows).map
          QBRecord.amount).sum ≤ 0 := hsum
    have key : ∃ msg, qbFinish cols rows = Except.error msg := by
      unfold qbFinish
      cases hmiss : (qbRequiredColumns.filter (· ∉ cols)).isEmpty with
      | false => exact ⟨_, by rw [if_pos (by decide)]⟩
      | true =>
        rw [if_neg (by rw [hmiss]; decide)] at hne2 hsum2
        cases hrows : rows.isEmpty with
        | true => exact ⟨_, by rw [if_neg (by decide), if_pos (by decide)]⟩
        | false =>
          rw [if_neg (by rw [hrows]; decide)] at hne2 hsum2
          have hrecsE : (qbAssembled cols rows).isEmpty = false := by
            cases hl : qbAssembled cols rows with
            | nil => exact absurd hl hne2
            | cons a l => rfl
          exact ⟨_, by rw [if_neg (by decide), if_neg (by decide),
            if_neg (by rw [hrecsE]; decide), if_pos (decide_eq_true hsum2)]⟩
    obtain ⟨msg, hmsg⟩ := key
    exact ⟨msg, hmsg⟩

/-- Witness for C8: a billing file with every required column except
`Amount`. -/
theorem missing_amount_column_error_instance :
    ∃ msg, process_quickbooks_file
        "Transaction date,Transaction type,Num,Customer,Product/Service full name,Line description,Quantity,Sales price\n1/2/24,Invoice,7,Dist,Svc,Desc,1,100"
      = Except.error msg ∧ containsSub msg.data "Amount".data = true :=
  missing_amount_column_error _
    ["Transaction date", "Transaction type", "Num", "Customer",
     "Product/Service full name", "Line description", "Quantity", "Sales price"]
    [[some "1/2/24", some "Invoice", some "7", some "Dist", some "Svc",
      some "Desc", some "1", some "100"]]
    rfl (by decide)

set_option maxRecDepth 4000 in
/-- Witness for C10: a one-line billing file whose only amount is −5. -/
theorem nonpositive_total_error_instance :
    ∃ msg, process_quickbooks_file
        "Transaction date,Transaction type,Num,Customer,Product/Service full name,Line description,Amount,Quantity,Sales price\n1/2/24,Invoice,7,Dist,Svc,Desc,-5,1,100"
      = Except.error msg := by
  have h1 : (qbRecords
      "Transaction date,Transaction type,Num,Customer,Product/Service full name,Line description,Amount,Quantity,Sales price\n1/2/24,Invoice,7,Dist,Svc,Desc,-5,1,100").map
      QBRecord.amount = [(-1 : ℚ) * ((5 : ℕ) : ℚ)] := rfl
  have hneq : qbRecords
      "Transaction date,Transaction type,Num,Customer,Product/Service full name,Line description,Amount,Quantity,Sales price\n1/2/24,Invoice,7,Dist,Svc,Desc,-5,1,100"
      ≠ [] := by
    intro habs
    rw [habs] at h1
    simp at h1
  have hsum : ((qbRecords
      "Transaction date,Transaction type,Num,Customer,Product/Service full name,Line description,Amount,Quantity,Sales price\n1/2/24,Invoice,7,Dist,Svc,Desc,-5,1,100").map
      QBRecord.amount).sum ≤ 0 := by
    rw [h1]
    norm_num
  exact nonpositive_total_error _ hneq hsum

/-! ## C6: `estimate_hours` on well-formed and malformed inputs -/

set_option maxRecDepth 8000 in
theorem mkTime_facts : ∀ (h : Fin 12) (m : Fin 60) (p : Bool),
    parseTimeColon (mkTime (h.val + 1) m.val p).data
      = some (minutesOf (h.val + 1) m.val p) ∧
    ((mkTime (h.val + 1) m.val p).data.all fun c => c ≠ '-') = true ∧
    stripL (mkTime (h.val + 1) m.val p).data = (mkTime (h.val + 1) m.val p).data ∧
    ((mkTime (h.val + 1) m.val p).data.any fun c => c = ':') = true := by decide

theorem mkTime_facts' (h m : ℕ) (p : Bool) (hh1 : 1 ≤ h) (hh2 : h ≤ 12)
    (hm : m ≤ 59) :
    parseTimeColon (mkTime h m p).data = some (minutesOf h m p) ∧
    ((mkTime h m p).data.all fun c => c ≠ '-') = true ∧
    stripL (mkTime h m p).data = (mkTime h m p).data ∧
    ((mkTime h m p).data.any fun c => c = ':') = true := by
  have e : (⟨h - 1, by omega⟩ : Fin 12).val + 1 = h := by
    show h - 1 + 1 = h
    omega
  have := mkTime_facts ⟨h - 1, by omega⟩ ⟨m, by omega⟩ p
  rw [e] at this
  exact this

theorem splitOnC_no_sep (sep : Char) (xs : List Char)
    (h : ∀ c ∈ xs, c ≠ sep) : splitOnC sep xs = [xs] := by
  induction xs with
  | nil => rfl
  | cons c cs ih =>
    have hc : c ≠ sep := h c (by simp)
    have ih2 := ih fun d hd => h d (by simp [hd])
    unfold splitOnC
    rw [ih2]
    simp [hc]

theorem splitOnC_single (sep : Char) (xs ys : List Char)
    (hx : ∀ c ∈ xs, c ≠ sep) (hy : ∀ c ∈ ys, c ≠ sep) :
    splitOnC sep (xs ++ sep :: ys) = [xs, ys] := by
  induction xs with
  | nil =>
    show splitOnC sep (sep :: ys) = [[], ys]
    unfold splitOnC
    rw [splitOnC_no_sep sep ys hy]
    simp
  | cons c cs ih =>
    have hc : c ≠ sep := hx c (by simp)
    have ih2 := ih fun d hd => hx d (by simp [hd])
    show splitOnC sep (c :: (cs ++ sep :: ys)) = [c :: cs, ys]
    unfold splitOnC
    rw [ih2]
    simp [hc]

theorem stripL_cons_space (xs : List Char) : stripL (' ' :: xs) = stripL xs := by
  unfold stripL
  rw [show (' ' :: xs).dropWhile pyIsSpace = xs.dropWhile pyIsSpace from by
    rw [List.dropWhile_cons, if_pos (by decide)]]

theorem dropTrail_append_space (ys : List Char) : dropTrail (ys ++ [' ']) = dropTrail ys := by
  unfold dropTrail
  rw [show (ys ++ [' ']).reverse = ' ' :: ys.reverse from by simp,
    List.dropWhile_cons, if_pos (by decide)]

theorem stripL_append_space (xs : List Char) : stripL (xs ++ [' ']) = stripL xs := by
  unfold stripL
  rw [List.dropWhile_append]
  cases he : (xs.dropWhile pyIsSpace).isEmpty with
  | true =>
    have h0 : xs.dropWhile pyIsSpace = [] := by simpa using he
    rw [if_pos rfl, h0]
    rfl
  | false =>
    rw [if_neg (by decide), dropTrail_append_space]

/-- **C6.** `estimate_hours`: for every well-formed
`"H:MM AM/PM - H:MM AM/PM"` range, the result is the elapsed time in
hours rounded to three decimals, with a 24-hour rollover when the end
precedes the start; a missing value, or any input without a `-`
(representatives of the malformed inputs — the function is a total
`Option`-valued function, so no input can raise), yields `none`. -/
theorem estimate_hours_spec :
    (∀ (h1 m1 h2 m2 : ℕ) (p1 p2 : Bool),
        1 ≤ h1 → h1 ≤ 12 → m1 ≤ 59 → 1 ≤ h2 → h2 ≤ 12 → m2 ≤ 59 →
        estimate_hours (some (mkTimeRange h1 m1 p1 h2 m2 p2)) =
          some (if minutesOf h1 m1 p1 ≤ minutesOf h2 m2 p2 then
              round3 ((((minutesOf h2 m2 p2 : ℚ) - (minutesOf h1 m1 p1 : ℚ))) / 60)
            else
              round3 ((((minutesOf h2 m2 p2 : ℚ) + 1440 - (minutesOf h1 m1 p1 : ℚ))) / 60))) ∧
    estimate_hours none = none ∧
    (∀ s : String, (s.data.any fun c => c = '-') = false →
        estimate_hours (some s) = none) := by
  refine ⟨?_, rfl, ?_⟩
  · intro h1 m1 h2 m2 p1 p2 hh1 hh2 hm1 hh3 hh4 hm2
    obtain ⟨hp1, hnd1, hst1, hc1⟩ := mkTime_facts' h1 m1 p1 hh1 hh2 hm1
    obtain ⟨hp2, hnd2, hst2, hc2⟩ := mkTime_facts' h2 m2 p2 hh3 hh4 hm2
    have hnd1' : ∀ c ∈ (mkTime h1 m1 p1).data, c ≠ '-' := by
      intro c hc
      have := List.all_eq_true.mp hnd1 c hc
      simpa using this
    have hnd2' : ∀ c ∈ (mkTime h2 m2 p2).data, c ≠ '-' := by
      intro c hc
      have := List.all_eq_true.mp hnd2 c hc
      simpa using this
    have hdata : (mkTimeRange h1 m1 p1 h2 m2 p2).data
        = ((mkTime h1 m1 p1).data ++ [' ']) ++ '-' :: (' ' :: (mkTime h2 m2 p2).data) := by
      show (mkTime h1 m1 p1).data ++ ' ' :: '-' :: ' ' :: (mkTime h2 m2 p2).data
        = ((mkTime h1 m1 p1).data ++ [' ']) ++ '-' :: (' ' :: (mkTime h2 m2 p2).data)
      simp
    have hsplit : splitOnC '-' (mkTimeRange h1 m1 p1 h2 m2 p2).data
        = [(mkTime h1 m1 p1).data ++ [' '], ' ' :: (mkTime h2 m2 p2).data] := by
      rw [hdata]
      refine splitOnC_single '-' _ _ ?_ ?_
      · intro c hc
        rcases List.mem_append.mp hc with hm | hm
        · exact hnd1' c hm
        · simp at hm
          rw [hm]
          decide
      · intro c hc
        rcases List.mem_cons.mp hc with hm | hm
        · rw [hm]; decide
        · exact hnd2' c hm
    have hdash : ((mkTimeRange h1 m1 p1 h2 m2 p2).data.any fun c => c = '-') = true := by
      rw [List.any_eq_true]
      refine ⟨'-', ?_, by decide⟩
      rw [hdata]
      simp
    simp only [estimate_hours]
    rw [if_neg (by rw [hdash]; decide), hsplit]
    simp only [stripL_append_space, stripL_cons_space, hst1, hst2, hc1, if_pos, hp1, hp2]
    have hb1 : minutesOf h1 m1 p1 < 1440 := by
      unfold minutesOf to24
      split <;> split <;> omega
    cases hle : decide (minutesOf h1 m1 p1 ≤ minutesOf h2 m2 p2) with
    | true =>
      have hle2 : minutesOf h1 m1 p1 ≤ minutesOf h2 m2 p2 := of_decide_eq_true hle
      rw [if_neg (by omega), if_pos hle2]
      refine congrArg some (congrArg round3 ?_)
      rw [Nat.cast_sub hle2]
      ring
    | false =>
      have hlt : minutesOf h2 m2 p2 < minutesOf h1 m1 p1 := by
        have := of_decide_eq_false hle
        omega
      rw [if_pos hlt, if_neg (by omega)]
      refine congrArg some (congrArg round3 ?_)
      rw [Nat.cast_sub (by omega), Nat.cast_add]
      push_cast
      ring
  · intro s hs
    simp only [estimate_hours]
    rw [if_pos (by rw [hs]; decide)]

/-- Witness for C6 at 9:00 AM – 10:30 AM. -/
theorem estimate_hours_spec_instance :
    estimate_hours (some (mkTimeRange 9 0 false 10 30 false)) =
      some (if minutesOf 9 0 false ≤ minutesOf 10 30 false then
          round3 ((((minutesOf 10 30 false : ℚ) - (minutesOf 9 0 false : ℚ))) / 60)
        else
          round3 ((((minutesOf 10 30 false : ℚ) + 1440 - (minutesOf 9 0 false : ℚ))) / 60)) :=
  estimate_hours_spec.1 9 0 10 30 false false (by decide) (by decide) (by decide)
    (by decide) (by decide) (by decide)
